import Mathlib

/-!
Verification of the permissions-api core against its specification.

The Go source under `internal/query` (CreateRoleV2, GetRoleV2, ListRolesV2,
roleV2OwnerRelationship, roleV2Relationships, listSpicedbRolesV2,
listRoleV2Actions, newRoleWithPrefix) is embedded shallowly below.
Collaborators whose sources are not part of the repository snapshot
(the gidx identifier codec, the SpiceDB client, the relational store, the
IAPL policy validator, the schema emitter and the HTTP error middleware)
are modelled from the specification, as marked on each definition.

Machine-level conventions: Go byte strings that require structural
reasoning (prefixed identifiers) are `List Char`; other strings are `String`.
Go `(value, error)` pairs are either `Except` or an explicit record with an
`err : Option String` field when the code can return a zero value together
with a nil error. SpiceDB relation names are a tagged type: the codec maps
an action `a` to the relation string `a ++ "_rel"`, which never collides
with the literal relation `"owner"`, so the tag faithfully mirrors the
string namespace.
-/

/-- Relation names appearing on v2 role relationships. `actionRel a` stands
for the relation string `a ++ "_rel"` produced by `actionToRelation`;
`owner` is the literal relation `"owner"` (`roleOwnerRelation`). -/
inductive RelName where
  | owner : RelName
  | actionRel : String → RelName
deriving DecidableEq, Repr

/-- Modelled from the spec: `actionToRelation` maps an action name to the
relation `<action>_rel` used on role permission relationships. -/
def actionToRelation (a : String) : RelName := RelName.actionRel a

/-- Modelled from the spec: `relationToAction` strips the `_rel` suffix,
recovering the action name from a permission relation. -/
def relationToAction : RelName → String
  | RelName.owner => "owner"
  | RelName.actionRel a => a

/-- A SpiceDB relationship: resource, relation, subject. Identifiers are
character lists; types are namespaced strings. -/
structure Relationship where
  resourceType : String
  resourceId : List Char
  relation : RelName
  subjectType : String
  subjectId : List Char
deriving DecidableEq, Repr

/-- Modelled from the spec: a SpiceDB `RelationshipFilter`, with the optional
fields used by the query layer. -/
structure RelationshipFilter where
  resourceType : String
  optResourceId : Option (List Char) := none
  optRelation : Option RelName := none
  optSubjectType : Option String := none
  optSubjectId : Option (List Char) := none
deriving DecidableEq, Repr

/-- Modelled from the spec: a relationship matches a filter when every
present optional field agrees, and the resource type agrees. -/
def relMatches (f : RelationshipFilter) (r : Relationship) : Bool :=
  r.resourceType = f.resourceType
    && (match f.optResourceId with | none => true | some i => r.resourceId = i)
    && (match f.optRelation with | none => true | some rl => r.relation = rl)
    && (match f.optSubjectType with | none => true | some t => r.subjectType = t)
    && (match f.optSubjectId with | none => true | some i => r.subjectId = i)

/-- Modelled from the spec: `readRelationships` returns all stored
relationships matching the filter, in store order. -/
def readRelationships (rels : List Relationship) (f : RelationshipFilter) :
    List Relationship :=
  rels.filter (relMatches f)

/-- SpiceDB relationship update operation. -/
inductive RelOp where
  | touch : RelOp
  | delete : RelOp
deriving DecidableEq, Repr

/-- A relationship update as sent in a `WriteRelationshipsRequest`. -/
structure RelationshipUpdate where
  op : RelOp
  rel : Relationship
deriving DecidableEq, Repr

/-- Modelled from the spec: applying one update to the relation engine
state. `TOUCH` is idempotent (inserts the relationship if absent),
`DELETE` removes it. -/
def applyUpdate (rels : List Relationship) (u : RelationshipUpdate) :
    List Relationship :=
  match u.op with
  | RelOp.touch => if u.rel ∈ rels then rels else rels ++ [u.rel]
  | RelOp.delete => rels.filter (fun r => r ≠ u.rel)

/-- Modelled from the spec: `WriteRelationships` applies the updates in
order to the relation engine state. -/
def writeRelationships (rels : List Relationship)
    (us : List RelationshipUpdate) : List Relationship :=
  us.foldl applyUpdate rels

/-- The `types.Role` record of the query layer (Go zero values are empty
lists, the empty string and 0). -/
structure Role where
  id : List Char
  name : String
  actions : List String
  resourceID : List Char
  createdBy : List Char
  updatedBy : List Char
  createdAt : Nat
  updatedAt : Nat
deriving DecidableEq, Repr

/-- The Go zero value `types.Role{}`. -/
def Role.empty : Role :=
  { id := [], name := "", actions := [], resourceID := [], createdBy := [],
    updatedBy := [], createdAt := 0, updatedAt := 0 }

/-- A row of the relational store for a role (`storage.Role`). -/
structure StorageRole where
  id : List Char
  name : String
  resourceID : List Char
  createdBy : List Char
  updatedBy : List Char
  createdAt : Nat
  updatedAt : Nat
deriving DecidableEq, Repr

/-- The Go zero value `storage.Role{}`, used by the map lookup in
`ListRolesV2` when a role is absent from storage. -/
def StorageRole.empty : StorageRole :=
  { id := [], name := "", resourceID := [], createdBy := [], updatedBy := [],
    createdAt := 0, updatedAt := 0 }

/-- A `types.Resource`: a prefixed identifier together with its resolved
resource type name. -/
structure Resource where
  id : List Char
  type : String
deriving DecidableEq, Repr

/-- Combined external state: the relation engine relationships and the
committed rows of the relational store. -/
structure World where
  rels : List Relationship
  roles : List StorageRole
deriving DecidableEq, Repr

/-- The engine configuration used by the v2 role operations: namespace,
the RBAC role resource type name, the role relationship subject types, and
the schema type map giving each resource type its registered 7-character
identifier prefix (also the gidx registration table). -/
structure Engine where
  ns : String
  roleResource : String
  roleSubjects : List String
  schemaTypeMap : List (String × List Char)
deriving DecidableEq, Repr

/-- Modelled from the spec: `gidx.NewID` concatenates a 7-character
type prefix with a random URL-safe token; the token is passed explicitly
here. Fails when the prefix is not 7 characters. -/
def gidxNewID (pfx : List Char) (token : List Char) :
    Except String (List Char) :=
  if pfx.length = 7 then Except.ok (pfx ++ token)
  else Except.error "invalid id format"

/-- Modelled from the spec: `gidx.Parse` succeeds exactly when the
identifier has at least 8 characters and its first 7 characters are a
registered prefix; it returns the prefix. -/
def gidxParse (eng : Engine) (s : List Char) : Option (List Char) :=
  if 8 ≤ s.length && eng.schemaTypeMap.any (fun pt => pt.2 = s.take 7) then
    some (s.take 7)
  else none

/-- Modelled from the spec: `NewResourceFromID` parses the identifier and
resolves its resource type through the registered prefix table. -/
def NewResourceFromID (eng : Engine) (id : List Char) : Option Resource :=
  match gidxParse eng id with
  | none => none
  | some p =>
    match eng.schemaTypeMap.find? (fun pt => pt.2 = p) with
    | some pt => some { id := id, type := pt.1 }
    | none => none

/-- From `roles.go`: `newRoleWithPrefix` allocates a prefixed identifier
and returns a role with only ID, name, and actions populated. -/
def newRoleWithPrefix (pfx : List Char) (name : String)
    (actions : List String) (token : List Char) : Except String Role :=
  match gidxNewID pfx token with
  | Except.error e => Except.error e
  | Except.ok id =>
    Except.ok { Role.empty with id := id, name := name, actions := actions }

/-- From `relations_v2.go`: `roleV2OwnerRelationship` converts the role ID
back to a resource (panicking — modelled as `Except.error ()` — if the
conversion fails), returns no relationship when the role resource type is
not in the schema, and otherwise builds the TOUCH of
`role#owner@owner`. -/
def roleV2OwnerRelationship (eng : Engine) (role : Role) (owner : Resource) :
    Except Unit (Option RelationshipUpdate) :=
  match NewResourceFromID eng role.id with
  | none => Except.error ()
  | some roleRes =>
    match eng.schemaTypeMap.find? (fun pt => pt.1 = eng.roleResource) with
    | none => Except.ok none
    | some _ =>
      Except.ok (some
        { op := RelOp.touch,
          rel :=
            { resourceType := eng.ns ++ "/" ++ roleRes.type,
              resourceId := roleRes.id,
              relation := RelName.owner,
              subjectType := eng.ns ++ "/" ++ owner.type,
              subjectId := owner.id } })

/-- From `relations_v2.go`: `roleV2Relationships` converts the role ID back
to a resource (panicking — modelled as `Except.error ()` — on failure),
returns no relationships when the role resource type is not in the
schema, and otherwise emits, for each action and each configured
relationship subject type, the TOUCH of
`role#<action>_rel@<ns>/<subjType>:*`. -/
def roleV2Relationships (eng : Engine) (role : Role) :
    Except Unit (List RelationshipUpdate) :=
  match NewResourceFromID eng role.id with
  | none => Except.error ()
  | some roleRes =>
    match eng.schemaTypeMap.find? (fun pt => pt.1 = eng.roleResource) with
    | none => Except.ok []
    | some _ =>
      Except.ok
        (role.actions.flatMap (fun a =>
          eng.roleSubjects.map (fun st =>
            { op := RelOp.touch,
              rel :=
                { resourceType := eng.ns ++ "/" ++ roleRes.type,
                  resourceId := roleRes.id,
                  relation := actionToRelation a,
                  subjectType := eng.ns ++ "/" ++ st,
                  subjectId := ['*'] } })))

/-- The relationship updates computed at the start of `CreateRoleV2`:
the permission relationships followed by the owner relationship. -/
def roleCreationRels (eng : Engine) (role : Role) (owner : Resource) :
    Except Unit (List RelationshipUpdate) := do
  let rels ← roleV2Relationships eng role
  let ownerRel ← roleV2OwnerRelationship eng role owner
  pure (rels ++ ownerRel.toList)

/-- Modelled from the spec: outcome injection for the storage and relation
engine calls made by `CreateRoleV2`. A `some` error makes the
corresponding call fail; `now` is the storage timestamp. -/
structure StoreBehavior where
  beginErr : Option String := none
  createErr : Option String := none
  writeErr : Option String := none
  commitErr : Option String := none
  rollbackErr : Option String := none
  now : Nat := 0
deriving DecidableEq, Repr

/-- The observable outcome of `CreateRoleV2`: the Go return pair
(`role`, `err`), the resulting external state, whether the storage
transaction was rolled back, and the rollback error passed to
`logRollbackErr` (when a rollback was attempted). -/
structure CreateResult where
  role : Role
  err : Option String
  world : World
  rolledBack : Bool
  loggedRollbackErr : Option String
deriving DecidableEq, Repr

/-- From `relations_v2.go`: `CreateRoleV2`. Trims the name, allocates the
role, computes the relationship updates, begins a storage transaction
(NOTE: on `BeginContext` failure the source returns `types.Role{}, nil`),
creates the storage row, writes the relationships (on failure: storage
rollback, original error returned), commits (on failure: storage rollback,
original error returned, relation engine writes left in place), and
returns the role with the storage row metadata. The `Except.error ()`
outcome is the panic of the relationship builders. -/
def CreateRoleV2 (eng : Engine) (beh : StoreBehavior) (world : World)
    (actor owner : Resource) (roleName : String) (actions : List String)
    (token : List Char) : Except Unit CreateResult :=
  let trimmed := roleName.trim
  let idPfx :=
    ((eng.schemaTypeMap.find? (fun pt => pt.1 = eng.roleResource)).map
      Prod.snd).getD []
  match newRoleWithPrefix idPfx trimmed actions token with
  | Except.error e =>
    Except.ok
      { role := Role.empty, err := some e, world := world,
        rolledBack := false, loggedRollbackErr := none }
  | Except.ok role =>
    match roleCreationRels eng role owner with
    | Except.error () => Except.error ()
    | Except.ok roleRels =>
      match beh.beginErr with
      | some _ =>
        Except.ok
          { role := Role.empty, err := none, world := world,
            rolledBack := false, loggedRollbackErr := none }
      | none =>
        match beh.createErr with
        | some e =>
          Except.ok
            { role := Role.empty, err := some e, world := world,
              rolledBack := false, loggedRollbackErr := none }
        | none =>
          let dbRole : StorageRole :=
            { id := role.id, name := trimmed, resourceID := owner.id,
              createdBy := actor.id, updatedBy := actor.id,
              createdAt := beh.now, updatedAt := beh.now }
          match beh.writeErr with
          | some e =>
            Except.ok
              { role := Role.empty, err := some e, world := world,
                rolledBack := true, loggedRollbackErr := beh.rollbackErr }
          | none =>
            let world1 : World :=
              { world with rels := writeRelationships world.rels roleRels }
            match beh.commitErr with
            | some e =>
              Except.ok
                { role := Role.empty, err := some e, world := world1,
                  rolledBack := true, loggedRollbackErr := beh.rollbackErr }
            | none =>
              Except.ok
                { role :=
                    { role with
                      createdBy := dbRole.createdBy,
                      updatedBy := dbRole.updatedBy,
                      resourceID := dbRole.resourceID,
                      createdAt := dbRole.createdAt,
                      updatedAt := dbRole.updatedAt },
                  err := none,
                  world := { world1 with roles := world1.roles ++ [dbRole] },
                  rolledBack := false, loggedRollbackErr := none }

/-- Modelled from the spec: `store.GetRoleByID` returns the stored row or
fails with NotFound. -/
def GetRoleByID (world : World) (id : List Char) :
    Except String StorageRole :=
  match world.roles.find? (fun r => r.id = id) with
  | some r => Except.ok r
  | none => Except.error "role not found"

/-- Modelled from the spec: `store.ListResourceRoles` returns the stored
rows owned by the given resource. -/
def ListResourceRoles (world : World) (ownerId : List Char) :
    List StorageRole :=
  world.roles.filter (fun r => r.resourceID = ownerId)

/-- From `relations_v2.go`: `listRoleV2Actions` returns `nil` when no role
relationship subjects are configured, and otherwise reads the role's
relationships whose subject is `<ns>/<firstSubject>:*` and maps each
relation back to its action name. -/
def listRoleV2Actions (eng : Engine) (world : World) (roleId : List Char) :
    List String :=
  match eng.roleSubjects with
  | [] => []
  | subj0 :: _ =>
    let f : RelationshipFilter :=
      { resourceType := eng.ns ++ "/" ++ eng.roleResource,
        optResourceId := some roleId,
        optSubjectType := some (eng.ns ++ "/" ++ subj0),
        optSubjectId := some ['*'] }
    (readRelationships world.rels f).map (fun r => relationToAction r.relation)

/-- From `relations_v2.go`: `GetRoleV2` rejects resources whose type is not
the role resource type, then joins the relation engine actions with the
storage row: name and metadata from storage, actions from the relation
engine. -/
def GetRoleV2 (eng : Engine) (world : World) (role : Resource) :
    Except String Role :=
  if role.type ≠ eng.roleResource then
    Except.error "invalid type"
  else
    let actions := listRoleV2Actions eng world role.id
    match GetRoleByID world role.id with
    | Except.error e => Except.error e
    | Except.ok dbrole =>
      Except.ok
        { id := dbrole.id, name := dbrole.name, actions := actions,
          resourceID := dbrole.resourceID, createdBy := dbrole.createdBy,
          updatedBy := dbrole.updatedBy, createdAt := dbrole.createdAt,
          updatedAt := dbrole.updatedAt }

/-- The filter used by `listSpicedbRolesV2`: roles whose `owner` relation
points at the given owner. -/
def ownerRoleFilter (eng : Engine) (owner : Resource) : RelationshipFilter :=
  { resourceType := eng.ns ++ "/" ++ eng.roleResource,
    optRelation := some RelName.owner,
    optSubjectType := some (eng.ns ++ "/" ++ owner.type),
    optSubjectId := some owner.id }

/-- Sequencing of a fallible map over a list: the first error aborts the
whole result (the Go fan-out drains all tasks and reports the first
error). -/
def exceptMapList {α β : Type} (f : α → Except String β) :
    List α → Except String (List β)
  | [] => Except.ok []
  | x :: xs =>
    match f x with
    | Except.error e => Except.error e
    | Except.ok y =>
      match exceptMapList f xs with
      | Except.error e => Except.error e
      | Except.ok ys => Except.ok (y :: ys)

/-- From `relations_v2.go`: `listSpicedbRolesV2` reads the owner
relationships of the given owner, parses each role ID (failing the whole
call when one does not parse), and pairs each role ID with its actions
from the relation engine. -/
def listSpicedbRolesV2 (eng : Engine) (world : World) (owner : Resource) :
    Except String (List Role) :=
  exceptMapList
    (fun r =>
      match gidxParse eng r.resourceId with
      | none => Except.error "invalid id"
      | some _ =>
        Except.ok
          { Role.empty with
            id := r.resourceId,
            actions := listRoleV2Actions eng world r.resourceId })
    (readRelationships world.rels (ownerRoleFilter eng owner))

/-- From `relations_v2.go`: `ListRolesV2` reads the relation engine roles
and the storage rows of the owner, then merges: for each relation engine
role, the storage row with the same ID is looked up (the Go map lookup
yields the zero row when absent) and the output entry takes ID, name and
metadata from the storage row and actions from the relation engine. -/
def ListRolesV2 (eng : Engine) (world : World) (owner : Resource) :
    Except String (List Role) :=
  match listSpicedbRolesV2 eng world owner with
  | Except.error e => Except.error e
  | Except.ok spicedbRoles =>
    let dbRoles := ListResourceRoles world owner.id
    Except.ok
      (spicedbRoles.map (fun sr =>
        let dbRole := (dbRoles.find? (fun r => r.id = sr.id)).getD
          StorageRole.empty
        { id := dbRole.id, name := dbRole.name, actions := sr.actions,
          resourceID := dbRole.resourceID, createdBy := dbRole.createdBy,
          updatedBy := dbRole.updatedBy, createdAt := dbRole.createdAt,
          updatedAt := dbRole.updatedAt }))

/-- Modelled from the spec: the internal cause attached to a transport HTTP
error (`echo.HTTPError.WithInternal`). -/
inductive InternalErr where
  | contextCanceled : InternalErr
  | deadlineExceeded : InternalErr
  | otherInternal : String → InternalErr
deriving DecidableEq, Repr

/-- Modelled from the spec: the error value returned by a handler to the
error middleware. -/
inductive HandlerError where
  | noError : HandlerError
  | httpError : Nat → String → Option InternalErr → HandlerError
  | contextCanceled : HandlerError
  | deadlineExceeded : HandlerError
  | otherError : String → HandlerError
deriving DecidableEq, Repr

/-- An HTTP response as observed by the middleware tests: a status code and
the two fields of the JSON error body. -/
structure HTTPResponse where
  status : Nat
  errorField : String
  messageField : String
deriving DecidableEq, Repr

/-- String rendering of an internal error cause, as in the Go error
messages. -/
def internalErrString : InternalErr → String
  | InternalErr.contextCanceled => "context canceled"
  | InternalErr.deadlineExceeded => "context deadline exceeded"
  | InternalErr.otherInternal s => s

/-- Whether an optional internal cause is a context error. -/
def isContextInternal : Option InternalErr → Bool
  | some InternalErr.contextCanceled => true
  | some InternalErr.deadlineExceeded => true
  | _ => false

/-- The echo-style rendering of a transport HTTP error,
`code=<status>, message=<msg>` with an `internal=` part when a cause is
attached. -/
def echoErrString (status : Nat) (msg : String)
    (internal : Option InternalErr) : String :=
  "code=" ++ toString status ++ ", message=" ++ msg ++
    (match internal with
     | none => ""
     | some i => ", internal=" ++ internalErrString i)

/-- Modelled from the spec: the API error middleware. A nil handler error
passes through. A bare context error while the request context is done
becomes 422 with body error `request canceled`; otherwise it falls through
to the generic 500. A transport HTTP error whose internal cause is a
context error becomes 422 while the request context is done (the error
body is re-rendered with code 422); otherwise the handler's status and
message pass through. Any other error becomes 500 with the error string in
both fields. -/
def errorMiddleware (err : HandlerError) (ctxDone : Bool) : HTTPResponse :=
  match err with
  | HandlerError.noError => { status := 200, errorField := "", messageField := "" }
  | HandlerError.contextCanceled =>
    if ctxDone then
      { status := 422, errorField := "request canceled",
        messageField := "request canceled" }
    else
      { status := 500, errorField := "context canceled",
        messageField := "context canceled" }
  | HandlerError.deadlineExceeded =>
    if ctxDone then
      { status := 422, errorField := "request canceled",
        messageField := "request canceled" }
    else
      { status := 500, errorField := "context deadline exceeded",
        messageField := "context deadline exceeded" }
  | HandlerError.httpError st msg internal =>
    if ctxDone && isContextInternal internal then
      { status := 422, errorField := echoErrString 422 msg internal,
        messageField := msg }
    else
      { status := st, errorField := echoErrString st msg internal,
        messageField := msg }
  | HandlerError.otherError m =>
    { status := 500, errorField := m, messageField := m }

/-- An IAPL `ConditionRelationshipAction`: permission flows through a
relationship, optionally via the target's named action (Go empty string
means unset). -/
structure ConditionRelationshipAction where
  relation : String
  actionName : String := ""
deriving DecidableEq, Repr

/-- An IAPL condition: the AND of its present variants (a relationship
action and/or a role-binding marker). -/
structure PDCondition where
  relationshipAction : Option ConditionRelationshipAction := none
  roleBinding : Bool := false
  roleBindingV2 : Bool := false
deriving DecidableEq, Repr

/-- An IAPL action binding: attaches an action to a type (or union) under
a disjunction of conditions. -/
structure PDActionBinding where
  actionName : String
  typeName : String
  conditions : List PDCondition := []
deriving DecidableEq, Repr

/-- An IAPL relationship declaration on a resource type. -/
structure PDRelationship where
  relation : String
  targetTypeNames : List String := []
deriving DecidableEq, Repr

/-- An IAPL resource type declaration. -/
structure PDResourceType where
  name : String
  idPfx : String := ""
  relationships : List PDRelationship := []
deriving DecidableEq, Repr

/-- An IAPL union declaration. -/
structure PDUnion where
  name : String
  resourceTypeNames : List String := []
deriving DecidableEq, Repr

/-- An IAPL action declaration. -/
structure PDAction where
  name : String
deriving DecidableEq, Repr

/-- The RBAC v2 configuration of a policy document. -/
structure RBACConfig where
  roleResourceName : String
  roleResourcePfx : String
  roleBindingResourceName : String
  roleBindingResourcePfx : String
  roleSubjectTypes : List String := []
  roleOwners : List String := []
  roleBindingSubjects : List String := []
deriving DecidableEq, Repr

/-- Modelled from the spec: `DefaultRBAC` configures `rolev2`/`rolebinding`
resources with `tenant` as the role owner and `user`/`client` subjects. -/
def DefaultRBAC : RBACConfig :=
  { roleResourceName := "rolev2", roleResourcePfx := "permrv2",
    roleBindingResourceName := "rolebinding",
    roleBindingResourcePfx := "permrbn",
    roleSubjectTypes := ["user", "client"],
    roleOwners := ["tenant"],
    roleBindingSubjects := ["user", "client", "group"] }

/-- An IAPL policy document. -/
structure PolicyDocument where
  rbac : Option RBACConfig := none
  resourceTypes : List PDResourceType := []
  unions : List PDUnion := []
  actions : List PDAction := []
  actionBindings : List PDActionBinding := []
deriving DecidableEq, Repr

/-- The policy validation error taxonomy. -/
inductive PolicyErr where
  | typeExists : PolicyErr
  | unknownType : PolicyErr
  | unknownRelation : PolicyErr
  | unknownAction : PolicyErr
  | invalidCondition : PolicyErr
  | invalidRBACConfig : PolicyErr
deriving DecidableEq, Repr

/-- Whether the declared resource type carries the named relation. -/
def typeHasRelation (doc : PolicyDocument) (tyName rel : String) : Bool :=
  match doc.resourceTypes.find? (fun t => t.name = tyName) with
  | some t => t.relationships.any (fun r => r.relation = rel)
  | none => false

/-- Whether the action binding target (a type or a union) carries the
relation: a type must declare it, a union must declare it on every
member. -/
def bindingTargetHasRelation (doc : PolicyDocument) (tyName rel : String) :
    Bool :=
  match doc.unions.find? (fun u => u.name = tyName) with
  | some u => u.resourceTypeNames.all (fun m => typeHasRelation doc m rel)
  | none => typeHasRelation doc tyName rel

/-- Validation of a single condition of an action binding (step 4 of the
validation algorithm). -/
def checkCondition (doc : PolicyDocument) (actionNames : List String)
    (tyName : String) (c : PDCondition) : Except PolicyErr Unit := do
  match c.relationshipAction with
  | none => pure ()
  | some ra =>
    if !bindingTargetHasRelation doc tyName ra.relation then
      throw PolicyErr.unknownRelation
    else if ra.actionName ≠ "" && !actionNames.contains ra.actionName then
      throw PolicyErr.unknownAction
    else
      pure ()

/-- Validation of a single action binding (step 4 of the validation
algorithm): the bound type (or union) and action must exist, then every
condition is checked. -/
def checkBinding (doc : PolicyDocument) (tns uns actionNames : List String)
    (b : PDActionBinding) : Except PolicyErr Unit := do
  if !(tns.contains b.typeName || uns.contains b.typeName) then
    throw PolicyErr.unknownType
  else if !actionNames.contains b.actionName then
    throw PolicyErr.unknownAction
  else
    b.conditions.forM (checkCondition doc actionNames b.typeName)

/-- Modelled from the spec: `Policy.Validate` of the IAPL compiler,
returning the first error in algorithm order. Step 1 rejects duplicate
names among resource types and unions (`TypeExists`). Step 2 resolves
unions: every member type must exist (`UnknownType`). Step 3 checks the
RBAC config: every role owner must be a declared resource type
(`UnknownType`); a config without role owners is rejected
(`InvalidRBACConfig`). Step 4 validates action bindings
(`UnknownType`/`UnknownRelation`/`UnknownAction`). -/
def validatePolicy (doc : PolicyDocument) : Except PolicyErr Unit := do
  let tns := doc.resourceTypes.map (fun t => t.name)
  let uns := doc.unions.map (fun u => u.name)
  let actionNames := doc.actions.map (fun a => a.name)
  if !(tns ++ uns).Nodup then
    throw PolicyErr.typeExists
  else if doc.unions.any (fun u =>
      u.resourceTypeNames.any (fun m => !tns.contains m)) then
    throw PolicyErr.unknownType
  else do
    (match doc.rbac with
     | none => pure ()
     | some cfg =>
       if cfg.roleOwners.any (fun o => !tns.contains o) then
         throw PolicyErr.unknownType
       else if cfg.roleOwners.isEmpty then
         throw PolicyErr.invalidRBACConfig
       else
         pure ())
    doc.actionBindings.forM (checkBinding doc tns uns actionNames)

/-- A target type of a schema relationship (`types.TargetType`): a type
name with an optional subject relation. -/
structure TargetType where
  name : String
  subjectRelation : String := ""
deriving DecidableEq, Repr

/-- A relationship of a schema resource type
(`types.ResourceTypeRelationship`). -/
structure SchemaRelationship where
  relation : String
  types : List TargetType := []
deriving DecidableEq, Repr

/-- A condition of a schema action (`types.Condition`): a relationship
action and/or a role-binding marker. -/
structure SchemaCondition where
  relationshipAction : Option ConditionRelationshipAction := none
  roleBinding : Bool := false
deriving DecidableEq, Repr

/-- A schema action (`types.Action`). -/
structure SchemaAction where
  name : String
  conditions : List SchemaCondition := []
deriving DecidableEq, Repr

/-- A schema resource type (`types.ResourceType`) as consumed by the
schema emitter. -/
structure SchemaResourceType where
  name : String
  relationships : List SchemaRelationship := []
  actions : List SchemaAction := []
deriving DecidableEq, Repr

/-- The schema emitter error taxonomy. -/
inductive SchemaErr where
  | noNamespace : SchemaErr
deriving DecidableEq, Repr

/-- Rendering of a relationship target: `<ns>/<name>` with an optional
`#<subjectRelation>` suffix. -/
def renderTarget (ns : String) (t : TargetType) : String :=
  ns ++ "/" ++ t.name ++
    (if t.subjectRelation = "" then "" else "#" ++ t.subjectRelation)

/-- Rendering of a relation line of a definition block. -/
def renderRelation (ns : String) (r : SchemaRelationship) : String :=
  "    relation " ++ r.relation ++ ": " ++
    String.intercalate " | " (r.types.map (renderTarget ns)) ++ "\n"

/-- Rendering of one condition of a permission expression: a relationship
action with a companion role-binding marker renders as the bare relation;
one with a target action renders as `relation->action`; otherwise as the
bare relation. Conditions without a relationship action render nothing. -/
def renderCondition (c : SchemaCondition) : Option String :=
  match c.relationshipAction with
  | none => none
  | some ra =>
    if c.roleBinding then some ra.relation
    else if ra.actionName = "" then some ra.relation
    else some (ra.relation ++ "->" ++ ra.actionName)

/-- Rendering of a permission line: the OR (`+`) of the action's
conditions. -/
def renderAction (a : SchemaAction) : String :=
  "    permission " ++ a.name ++ " = " ++
    String.intercalate " + " (a.conditions.filterMap renderCondition) ++ "\n"

/-- Rendering of one `definition` block: relations in declaration order,
then permissions sorted alphabetically by action name. Braces are the
characters 0x7b and 0x7d. -/
def renderType (ns : String) (t : SchemaResourceType) : String :=
  "definition " ++ ns ++ "/" ++ t.name ++ " \x7b\n" ++
    String.join (t.relationships.map (renderRelation ns)) ++
    String.join
      ((List.insertionSort (fun a b : SchemaAction => a.name ≤ b.name)
        t.actions).map renderAction) ++
    "\x7d\n"

/-- The ordering class of a resource type in the emitted schema:
subject-like types (no relations) first, then `role`, `role_binding`,
`group`, the owner hierarchy (`tenant`), then concrete resources. -/
def typeClassDigit (t : SchemaResourceType) : String :=
  if t.relationships.isEmpty && t.actions.isEmpty then "0"
  else if t.name = "role" then "1"
  else if t.name = "role_binding" then "2"
  else if t.name = "group" then "3"
  else if t.name = "tenant" then "4"
  else "5"

/-- The sort key of a resource type: its ordering class followed by its
name; the rendered block is carried alongside and breaks ties so that the
order is total. -/
def typeSortKey (ns : String) (t : SchemaResourceType) : String × String :=
  (typeClassDigit t ++ t.name, renderType ns t)

/-- The lexicographic order on sort keys. -/
def keyLE (a b : String × String) : Prop :=
  a.1 < b.1 ∨ (a.1 = b.1 ∧ a.2 ≤ b.2)

instance : DecidableRel keyLE := fun a b => by
  unfold keyLE; infer_instance

instance : IsTotal (String × String) keyLE := by
  constructor
  intro a b
  rcases lt_trichotomy a.1 b.1 with h | h | h
  · exact Or.inl (Or.inl h)
  · rcases le_total a.2 b.2 with h2 | h2
    · exact Or.inl (Or.inr ⟨h, h2⟩)
    · exact Or.inr (Or.inr ⟨h.symm, h2⟩)
  · exact Or.inr (Or.inl h)

instance : IsTrans (String × String) keyLE := by
  constructor
  intro a b c hab hbc
  rcases hab with h1 | ⟨h1, h1'⟩
  · rcases hbc with h2 | ⟨h2, _⟩
    · exact Or.inl (h1.trans h2)
    · exact Or.inl (h2 ▸ h1)
  · rcases hbc with h2 | ⟨h2, h2'⟩
    · exact Or.inl (h1 ▸ h2)
    · exact Or.inr ⟨h1.trans h2, h1'.trans h2'⟩

instance : IsAntisymm (String × String) keyLE := by
  constructor
  intro a b hab hba
  rcases hab with h1 | ⟨h1, h1'⟩
  · rcases hba with h2 | ⟨h2, _⟩
    · exact absurd (h1.trans h2) (lt_irrefl a.1)
    · exact absurd h1 (h2 ▸ lt_irrefl b.1)
  · rcases hba with h2 | ⟨h2, h2'⟩
    · exact absurd h2 (h1 ▸ lt_irrefl a.1)
    · exact Prod.ext h1 (le_antisymm h1' h2')

/-- Modelled from the spec: `GenerateSchema` fails with `NoNamespace` (and
an empty output string) when the namespace is empty, and otherwise emits
one `definition` block per resource type, ordered by the sort key. The Go
pair `(string, error)` is returned as is. -/
def GenerateSchema (ns : String) (rts : List SchemaResourceType) :
    String × Option SchemaErr :=
  if ns = "" then ("", some SchemaErr.noNamespace)
  else
    (String.join
      ((List.insertionSort keyLE (rts.map (typeSortKey ns))).map Prod.snd),
     none)

/-- The merge rule of `ListRolesV2` stated the way the amended claim reads
it: for a relation engine role ID, the output entry takes name, ID and
metadata from the storage row with that ID when one exists for the owner,
and is the zero role otherwise; in both cases the actions come from the
relation engine. -/
def joinedRoleEntry (eng : Engine) (world : World) (owner : Resource)
    (rid : List Char) : Role :=
  match (ListResourceRoles world owner.id).find? (fun s => s.id = rid) with
  | some s =>
    { id := s.id, name := s.name,
      actions := listRoleV2Actions eng world rid,
      resourceID := s.resourceID, createdBy := s.createdBy,
      updatedBy := s.updatedBy, createdAt := s.createdAt,
      updatedAt := s.updatedAt }
  | none =>
    { Role.empty with actions := listRoleV2Actions eng world rid }

/-- A concrete engine configuration: the `infratographer` namespace with
the default RBAC role resource and two registered prefixes. -/
def engC : Engine :=
  { ns := "infratographer", roleResource := "rolev2",
    roleSubjects := ["user", "client"],
    schemaTypeMap :=
      [("rolev2", "permrv2".toList), ("tenant", "tnntten".toList)] }

/-- A concrete random token for identifier allocation. -/
def tokenC : List Char := "abcdefghij0123456789".toList

/-- A concrete tenant identifier. -/
def tenantIdC : List Char := "tnnttenabcdefghij0123".toList

/-- A concrete actor identifier. -/
def actorIdC : List Char := "idntusractor0123456789".toList

/-- A concrete owner resource (a tenant). -/
def ownerC : Resource := { id := tenantIdC, type := "tenant" }

/-- A concrete actor resource. -/
def actorC : Resource := { id := actorIdC, type := "user" }

/-- The empty external state. -/
def worldEmpty : World := { rels := [], roles := [] }

/-- A store behavior whose `BeginContext` fails. -/
def behBeginFail : StoreBehavior := { beginErr := some "begin failed" }

/-- A concrete role identifier present only in the relation engine. -/
def roleIdXC : List Char := "permrv2xonlyinspicedb".toList

/-- A concrete role identifier present only in storage. -/
def roleIdYC : List Char := "permrv2yonlyinstorage".toList

/-- A world where role X exists only in the relation engine (with one
action) and role Y exists only in storage. -/
def worldSplitC : World :=
  { rels :=
      [{ resourceType := "infratographer/rolev2", resourceId := roleIdXC,
         relation := RelName.owner,
         subjectType := "infratographer/tenant", subjectId := tenantIdC },
       { resourceType := "infratographer/rolev2", resourceId := roleIdXC,
         relation := RelName.actionRel "loadbalancer_get",
         subjectType := "infratographer/user", subjectId := ['*'] }],
    roles :=
      [{ id := roleIdYC, name := "storage-only", resourceID := tenantIdC,
         createdBy := actorIdC, updatedBy := actorIdC,
         createdAt := 1, updatedAt := 2 }] }

/-- The policy document of the `TypeExists` test case: a union sharing the
name of a resource type. -/
def docTypeExistsC : PolicyDocument :=
  { resourceTypes := [{ name := "foo" }],
    unions := [{ name := "foo", resourceTypeNames := ["foo"] }] }

/-- The policy document of the `UnknownTypeInUnion` test case: a union
naming an undeclared resource type. -/
def docUnknownUnionC : PolicyDocument :=
  { resourceTypes := [{ name := "foo" }],
    unions := [{ name := "bar", resourceTypeNames := ["baz"] }] }

/-- The policy document of the `RoleOwnerMissing` test case: the default
RBAC config with no resource types, so the `tenant` role owner is
undeclared. -/
def docRoleOwnerMissingC : PolicyDocument :=
  { rbac := some DefaultRBAC }

/-- The permission relationship update written by `CreateRoleV2` for one
action and one subject type (resource type resolved to the role resource
type, as under a well-formed prefix table). -/
def mkActionUpdate (eng : Engine) (rid : List Char) (a st : String) :
    RelationshipUpdate :=
  { op := RelOp.touch,
    rel :=
      { resourceType := eng.ns ++ "/" ++ eng.roleResource,
        resourceId := rid,
        relation := RelName.actionRel a,
        subjectType := eng.ns ++ "/" ++ st,
        subjectId := ['*'] } }

/-- The owner relationship update written by `CreateRoleV2`. -/
def mkOwnerUpdate (eng : Engine) (rid : List Char) (owner : Resource) :
    RelationshipUpdate :=
  { op := RelOp.touch,
    rel :=
      { resourceType := eng.ns ++ "/" ++ eng.roleResource,
        resourceId := rid,
        relation := RelName.owner,
        subjectType := eng.ns ++ "/" ++ owner.type,
        subjectId := owner.id } }

/-- All relationship updates computed by `CreateRoleV2` for a role with the
given ID, actions and owner: one permission update per action and subject
type, then the owner update. -/
def createUpdates (eng : Engine) (rid : List Char) (actions : List String)
    (owner : Resource) : List RelationshipUpdate :=
  (actions.flatMap (fun a =>
    eng.roleSubjects.map (fun st => mkActionUpdate eng rid a st))) ++
    [mkOwnerUpdate eng rid owner]

/-- Claim C9: for every resource-type list, `GenerateSchema` with an empty
namespace fails with `NoNamespace` and produces an empty output string;
with a non-empty namespace it returns a schema string with no error. -/
theorem generateSchema_noNamespace (rts : List SchemaResourceType)
    (ns : String) (h : ns ≠ "") :
    GenerateSchema "" rts = ("", some SchemaErr.noNamespace) ∧
    (GenerateSchema ns rts).2 = none := by
  constructor
  · simp [GenerateSchema]
  · rw [GenerateSchema, if_neg h]

/-- Witness for C9 at the namespace `foo` and a single `user` type. -/
theorem generateSchema_noNamespace_witness :
    GenerateSchema "" [{ name := "user" }] = ("", some SchemaErr.noNamespace) ∧
    (GenerateSchema "foo" [{ name := "user" }]).2 = none :=
  generateSchema_noNamespace [{ name := "user" }] "foo" (by decide)

/-- Claim C8: schema generation is deterministic. Go map iteration order is
modelled by quantifying over permutations of the resource-type list: any
two permutations of the same types produce byte-for-byte identical
output, because the emitter orders definitions by their sort key. -/
theorem generateSchema_deterministic (ns : String)
    {l1 l2 : List SchemaResourceType} (h : l1.Perm l2) :
    GenerateSchema ns l1 = GenerateSchema ns l2 := by
  unfold GenerateSchema
  by_cases hns : ns = ""
  · simp [hns]
  · rw [if_neg hns, if_neg hns]
    have hperm : (l1.map (typeSortKey ns)).Perm (l2.map (typeSortKey ns)) :=
      h.map _
    have heq :
        List.insertionSort keyLE (l1.map (typeSortKey ns)) =
        List.insertionSort keyLE (l2.map (typeSortKey ns)) :=
      List.eq_of_perm_of_sorted
        (((List.perm_insertionSort keyLE _).trans hperm).trans
          (List.perm_insertionSort keyLE _).symm)
        (List.sorted_insertionSort keyLE _)
        (List.sorted_insertionSort keyLE _)
    rw [heq]

/-- Witness for C8: two permutations of a two-type list give the same
schema. -/
theorem generateSchema_deterministic_witness :
    GenerateSchema "foo" [{ name := "user" }, { name := "tenant" }] =
    GenerateSchema "foo" [{ name := "tenant" }, { name := "user" }] :=
  generateSchema_deterministic "foo" (by decide)

/-- Claim C5: a handler returning a context error while the request context
is done gets a 422 response with body error `request canceled`; a transport
HTTP error whose cause is not a context error passes its handler-chosen
status through. -/
theorem errorMiddleware_cancel_and_passthrough (err : HandlerError)
    (st : Nat) (msg : String) (internal : Option InternalErr) :
    ((err = HandlerError.contextCanceled ∨ err = HandlerError.deadlineExceeded) →
      (errorMiddleware err true).status = 422 ∧
      (errorMiddleware err true).errorField = "request canceled") ∧
    (isContextInternal internal = false →
      ∀ d, (errorMiddleware (HandlerError.httpError st msg internal) d).status = st) := by
  constructor
  · rintro (rfl | rfl) <;> exact ⟨rfl, rfl⟩
  · intro h d
    simp [errorMiddleware, h]

/-- Witness for C5: a canceled request gives 422 with body error
`request canceled`; a teapot error passes 418 through. -/
theorem errorMiddleware_cancel_and_passthrough_witness :
    (errorMiddleware HandlerError.contextCanceled true).status = 422 ∧
    (errorMiddleware HandlerError.contextCanceled true).errorField =
      "request canceled" ∧
    (errorMiddleware (HandlerError.httpError 418 "teapot" none) false).status =
      418 := by
  have h := errorMiddleware_cancel_and_passthrough
    HandlerError.contextCanceled 418 "teapot" none
  exact ⟨(h.1 (Or.inl rfl)).1, (h.1 (Or.inl rfl)).2, h.2 (by decide) false⟩

/-- Counterexample to C6 as stated: the handler returns an explicit 5xx
transport error (status 500) whose internal cause is a context error while
the request context is done; the middleware responds 422, not the
preserved 5xx status. -/
theorem errorMiddleware_5xx_not_preserved :
    (errorMiddleware
      (HandlerError.httpError 500 "some message"
        (some InternalErr.contextCanceled)) true).status = 422 ∧
    ¬ (errorMiddleware
      (HandlerError.httpError 500 "some message"
        (some InternalErr.contextCanceled)) true).status = 500 := by
  decide

/-- Claim C6 (amended): a transport HTTP error whose internal cause is a
context error maps to 422 when the request context is done, and to the
handler's chosen status when it is not. -/
theorem errorMiddleware_internal_cancel (st : Nat) (msg : String)
    (i : InternalErr) (h : isContextInternal (some i) = true) :
    (errorMiddleware (HandlerError.httpError st msg (some i)) true).status =
      422 ∧
    (errorMiddleware (HandlerError.httpError st msg (some i)) false).status =
      st := by
  constructor <;> simp [errorMiddleware, h]

/-- Witness for the amended C6 at a 500 error with internal context
cancellation. -/
theorem errorMiddleware_internal_cancel_witness :
    (errorMiddleware
      (HandlerError.httpError 500 "service error"
        (some InternalErr.contextCanceled)) true).status = 422 ∧
    (errorMiddleware
      (HandlerError.httpError 500 "service error"
        (some InternalErr.contextCanceled)) false).status = 500 :=
  errorMiddleware_internal_cancel 500 "service error"
    InternalErr.contextCanceled (by decide)


/-- Claim C7: `validate` fails with `TypeExists` whenever a union shares a
name with a resource type; with no duplicate names it fails with
`UnknownType` whenever a union names an undeclared resource type; and with
resolvable unions it fails with `UnknownType` whenever the RBAC config
lists a role owner that is not a declared resource type. -/
theorem validatePolicy_errors (doc : PolicyDocument) (cfg : RBACConfig) :
    ((∃ u ∈ doc.unions, u.name ∈ doc.resourceTypes.map (fun t => t.name)) →
      validatePolicy doc = Except.error PolicyErr.typeExists) ∧
    ((doc.resourceTypes.map (fun t => t.name) ++
        doc.unions.map (fun u => u.name)).Nodup →
      (∃ u ∈ doc.unions, ∃ m ∈ u.resourceTypeNames,
        m ∉ doc.resourceTypes.map (fun t => t.name)) →
      validatePolicy doc = Except.error PolicyErr.unknownType) ∧
    ((doc.resourceTypes.map (fun t => t.name) ++
        doc.unions.map (fun u => u.name)).Nodup →
      (∀ u ∈ doc.unions, ∀ m ∈ u.resourceTypeNames,
        m ∈ doc.resourceTypes.map (fun t => t.name)) →
      doc.rbac = some cfg →
      (∃ o ∈ cfg.roleOwners, o ∉ doc.resourceTypes.map (fun t => t.name)) →
      validatePolicy doc = Except.error PolicyErr.unknownType) := by
  refine ⟨?_, ?_, ?_⟩
  · rintro ⟨u, hu, hname⟩
    have hnd : ¬ (doc.resourceTypes.map (fun t => t.name) ++
        doc.unions.map (fun u => u.name)).Nodup := by
      rw [List.nodup_append]
      rintro ⟨-, -, hdisj⟩
      exact hdisj hname (List.mem_map_of_mem _ hu)
    simp only [validatePolicy]
    rw [if_pos (by simpa using hnd)]
    rfl
  · intro hnd hex
    have hany : (doc.unions.any (fun u =>
        u.resourceTypeNames.any (fun m =>
          !(doc.resourceTypes.map (fun t => t.name)).contains m))) = true := by
      obtain ⟨u, hu, m, hm, hmem⟩ := hex
      rw [List.any_eq_true]
      have hinner : (u.resourceTypeNames.any (fun m =>
          !(doc.resourceTypes.map (fun t => t.name)).contains m)) = true := by
        rw [List.any_eq_true]
        refine ⟨m, hm, ?_⟩
        simpa using hmem
      exact ⟨u, hu, hinner⟩
    simp only [validatePolicy]
    rw [if_neg (by simpa using hnd), if_pos hany]
    rfl
  · intro hnd hres hrbac hex
    have hany : (doc.unions.any (fun u =>
        u.resourceTypeNames.any (fun m =>
          !(doc.resourceTypes.map (fun t => t.name)).contains m))) = false := by
      rw [Bool.eq_false_iff]
      intro hcontra
      rw [List.any_eq_true] at hcontra
      obtain ⟨u, hu, hinner⟩ := hcontra
      rw [List.any_eq_true] at hinner
      obtain ⟨m, hm, hmem⟩ := hinner
      have hmem2 : m ∉ doc.resourceTypes.map (fun t => t.name) := by
        simpa using hmem
      exact hmem2 (hres u hu m hm)
    have howners : (cfg.roleOwners.any (fun o =>
        !(doc.resourceTypes.map (fun t => t.name)).contains o)) = true := by
      obtain ⟨o, ho, homem⟩ := hex
      rw [List.any_eq_true]
      refine ⟨o, ho, ?_⟩
      simpa using homem
    simp only [validatePolicy]
    rw [if_neg (by simpa using hnd), if_neg (by rw [hany]; simp), hrbac]
    simp only [howners]
    rfl

/-- Witness for C7 at the three policy documents of the compiler test
suite. -/
theorem validatePolicy_errors_witness :
    validatePolicy docTypeExistsC = Except.error PolicyErr.typeExists ∧
    validatePolicy docUnknownUnionC = Except.error PolicyErr.unknownType ∧
    validatePolicy docRoleOwnerMissingC = Except.error PolicyErr.unknownType :=
  ⟨(validatePolicy_errors docTypeExistsC DefaultRBAC).1 (by decide),
   (validatePolicy_errors docUnknownUnionC DefaultRBAC).2.1 (by decide)
     (by decide),
   (validatePolicy_errors docRoleOwnerMissingC DefaultRBAC).2.2 (by decide)
     (by decide) rfl (by decide)⟩

/-- Claim C1 (code bug): when `BeginContext` fails, `CreateRoleV2` returns
the zero role together with a nil error — a success — instead of
propagating the storage error; evaluated here at a concrete input with a
failing `BeginContext`. -/
theorem createRoleV2_beginContext_bug :
    CreateRoleV2 engC behBeginFail worldEmpty actorC ownerC "admin"
      ["loadbalancer_get"] tokenC =
    Except.ok
      { role := Role.empty, err := none, world := worldEmpty,
        rolledBack := false, loggedRollbackErr := none } := by
  rfl

/-- An identifier allocated with a registered 7-character prefix parses
back: `NewResourceFromID` resolves it through the prefix table. -/
theorem newResourceFromID_ok (eng : Engine) (pfx token : List Char)
    (ty : String) (hreg : (ty, pfx) ∈ eng.schemaTypeMap)
    (hlen : pfx.length = 7) (htok : token ≠ []) :
    gidxParse eng (pfx ++ token) = some pfx ∧
    ∃ pt, eng.schemaTypeMap.find? (fun p2 => p2.2 = pfx) = some pt ∧
      NewResourceFromID eng (pfx ++ token) =
        some { id := pfx ++ token, type := pt.1 } := by
  have htake : (pfx ++ token).take 7 = pfx := List.take_left' hlen
  have hlen8 : 8 ≤ (pfx ++ token).length := by
    rw [List.length_append, hlen]
    have : 1 ≤ token.length := List.length_pos.mpr htok
    omega
  have hparse : gidxParse eng (pfx ++ token) = some pfx := by
    rw [gidxParse, if_pos, htake]
    rw [Bool.and_eq_true]
    constructor
    · simpa using hlen8
    · rw [List.any_eq_true]
      refine ⟨(ty, pfx), hreg, ?_⟩
      simp [htake]
  have hfind : (eng.schemaTypeMap.find? (fun p2 => p2.2 = pfx)).isSome := by
    rw [List.find?_isSome]
    refine ⟨(ty, pfx), hreg, ?_⟩
    simp
  obtain ⟨pt, hpt⟩ := Option.isSome_iff_exists.mp hfind
  refine ⟨hparse, pt, hpt, ?_⟩
  simp only [NewResourceFromID, hparse, hpt]

/-- Claim C10: for every role whose ID was produced by `newRoleWithPrefix`
with a registered 7-character prefix and a spec-length random token, the
relationship builders `roleV2OwnerRelationship` and `roleV2Relationships`
never reach their panic branch. -/
theorem roleV2_builders_no_panic (eng : Engine) (pfx token : List Char)
    (name : String) (actions : List String) (owner : Resource) (role : Role)
    (ty : String) (hreg : (ty, pfx) ∈ eng.schemaTypeMap)
    (hlen : pfx.length = 7) (htok : 20 ≤ token.length)
    (htok2 : token.length ≤ 32)
    (hrole : newRoleWithPrefix pfx name actions token = Except.ok role) :
    (∃ v, roleV2OwnerRelationship eng role owner = Except.ok v) ∧
    (∃ v, roleV2Relationships eng role = Except.ok v) := by
  have hne : token ≠ [] := by
    intro h
    rw [h] at htok
    simp at htok
  have hid : role.id = pfx ++ token := by
    rw [newRoleWithPrefix, gidxNewID, if_pos hlen] at hrole
    cases hrole
    rfl
  obtain ⟨-, pt, hpt, hres⟩ := newResourceFromID_ok eng pfx token ty hreg hlen hne
  rw [← hid] at hres
  constructor
  · rw [roleV2OwnerRelationship, hres]
    cases hfind : eng.schemaTypeMap.find? (fun p2 => p2.1 = eng.roleResource) <;>
      exact ⟨_, rfl⟩
  · rw [roleV2Relationships, hres]
    cases hfind : eng.schemaTypeMap.find? (fun p2 => p2.1 = eng.roleResource) <;>
      exact ⟨_, rfl⟩

/-- Witness for C10: a concrete role allocated with the registered
`permrv2` prefix and a 20-character token. -/
theorem roleV2_builders_no_panic_witness :
    (∃ v, roleV2OwnerRelationship engC
      { Role.empty with
        id := "permrv2".toList ++ tokenC, name := "admin",
        actions := ["loadbalancer_get"] } ownerC = Except.ok v) ∧
    (∃ v, roleV2Relationships engC
      { Role.empty with
        id := "permrv2".toList ++ tokenC, name := "admin",
        actions := ["loadbalancer_get"] } = Except.ok v) :=
  roleV2_builders_no_panic engC ("permrv2".toList) tokenC "admin"
    ["loadbalancer_get"] ownerC _ "rolev2" (by decide) (by decide) (by decide)
    (by decide) (by rfl)

/-- Claim C3: in `CreateRoleV2`, a relation engine write failure or a
storage commit failure rolls the storage transaction back and returns the
original error (for every rollback outcome `beh.rollbackErr`, which is
only logged); on the commit-failure path the already-written relation
engine relationships are left in place. -/
theorem createRoleV2_rollback_on_failure (eng : Engine) (beh : StoreBehavior)
    (world : World) (actor owner : Resource) (roleName : String)
    (actions : List String) (token : List Char) (pt0 : String × List Char)
    (e : String)
    (hfind : eng.schemaTypeMap.find? (fun pt => pt.1 = eng.roleResource) =
      some pt0)
    (hpfx : pt0.2.length = 7) (htok : token ≠ [])
    (hb : beh.beginErr = none) (hc : beh.createErr = none) :
    (beh.writeErr = some e →
      CreateRoleV2 eng beh world actor owner roleName actions token =
      Except.ok
        { role := Role.empty, err := some e, world := world,
          rolledBack := true, loggedRollbackErr := beh.rollbackErr }) ∧
    (beh.writeErr = none → beh.commitErr = some e →
      ∃ role rels,
        newRoleWithPrefix pt0.2 roleName.trim actions token =
          Except.ok role ∧
        roleCreationRels eng role owner = Except.ok rels ∧
        CreateRoleV2 eng beh world actor owner roleName actions token =
        Except.ok
          { role := Role.empty, err := some e,
            world :=
              { rels := writeRelationships world.rels rels,
                roles := world.roles },
            rolledBack := true, loggedRollbackErr := beh.rollbackErr }) := by
  have hreg : (pt0.1, pt0.2) ∈ eng.schemaTypeMap := by
    have := List.mem_of_find?_eq_some hfind
    simpa using this
  have hrole : newRoleWithPrefix pt0.2 roleName.trim actions token =
      Except.ok
        { Role.empty with
          id := pt0.2 ++ token, name := roleName.trim, actions := actions } := by
    rw [newRoleWithPrefix, gidxNewID, if_pos hpfx]
  obtain ⟨-, pt, hpt, hres⟩ :=
    newResourceFromID_ok eng pt0.2 token pt0.1 hreg hpfx htok
  have hrels : ∃ rels, roleCreationRels eng
      { Role.empty with
        id := pt0.2 ++ token, name := roleName.trim, actions := actions }
      owner = Except.ok rels := by
    rw [roleCreationRels]
    rw [roleV2Relationships, roleV2OwnerRelationship]
    simp only [hres, hfind]
    exact ⟨_, rfl⟩
  obtain ⟨rels, hrels⟩ := hrels
  constructor
  · intro hw
    rw [CreateRoleV2]
    simp only [hfind, Option.map_some', Option.getD_some]
    rw [hrole]
    simp only [hrels, hb, hc, hw]
  · intro hw hcm
    refine ⟨_, rels, hrole, hrels, ?_⟩
    rw [CreateRoleV2]
    simp only [hfind, Option.map_some', Option.getD_some]
    rw [hrole]
    simp only [hrels, hb, hc, hw, hcm]

/-- Witness for C3 at a concrete engine: a failing relation engine write
and a failing storage commit, each with a failing rollback whose error is
only logged. -/
theorem createRoleV2_rollback_on_failure_witness :
    (CreateRoleV2 engC
      { writeErr := some "write failed",
        rollbackErr := some "rollback failed" }
      worldEmpty actorC ownerC "admin" ["loadbalancer_get"] tokenC =
      Except.ok
        { role := Role.empty, err := some "write failed", world := worldEmpty,
          rolledBack := true,
          loggedRollbackErr := some "rollback failed" }) ∧
    (∃ role rels,
      newRoleWithPrefix ("rolev2", "permrv2".toList).2 "admin".trim
          ["loadbalancer_get"] tokenC = Except.ok role ∧
      roleCreationRels engC role ownerC = Except.ok rels ∧
      CreateRoleV2 engC
        { commitErr := some "commit failed",
          rollbackErr := some "rollback failed" }
        worldEmpty actorC ownerC "admin" ["loadbalancer_get"] tokenC =
      Except.ok
        { role := Role.empty, err := some "commit failed",
          world :=
            { rels := writeRelationships worldEmpty.rels rels,
              roles := worldEmpty.roles },
          rolledBack := true,
          loggedRollbackErr := some "rollback failed" }) :=
  ⟨(createRoleV2_rollback_on_failure engC
      { writeErr := some "write failed",
        rollbackErr := some "rollback failed" }
      worldEmpty actorC ownerC "admin" ["loadbalancer_get"] tokenC
      ("rolev2", "permrv2".toList) "write failed" (by rfl) (by decide)
      (by decide) rfl rfl).1 rfl,
   (createRoleV2_rollback_on_failure engC
      { commitErr := some "commit failed",
        rollbackErr := some "rollback failed" }
      worldEmpty actorC ownerC "admin" ["loadbalancer_get"] tokenC
      ("rolev2", "permrv2".toList) "commit failed" (by rfl) (by decide)
      (by decide) rfl rfl).2 rfl rfl⟩

/-- Membership after a touch-only `WriteRelationships`: a relationship is
present afterwards iff it was present before or appears in one of the
updates. -/
theorem mem_writeRelationships {us : List RelationshipUpdate}
    (hall : ∀ u ∈ us, u.op = RelOp.touch) (w : List Relationship)
    (r : Relationship) :
    r ∈ writeRelationships w us ↔ r ∈ w ∨ ∃ u ∈ us, u.rel = r := by
  induction us generalizing w with
  | nil => simp [writeRelationships]
  | cons u us ih =>
    have hu : u.op = RelOp.touch := hall u (by simp)
    have hrest : ∀ v ∈ us, v.op = RelOp.touch := fun v hv =>
      hall v (by simp [hv])
    have hstep : writeRelationships w (u :: us) =
        writeRelationships (applyUpdate w u) us := rfl
    rw [hstep, ih hrest]
    have happ : r ∈ applyUpdate w u ↔ r ∈ w ∨ u.rel = r := by
      rw [applyUpdate, hu]
      by_cases hmem : u.rel ∈ w
      · rw [if_pos hmem]
        constructor
        · exact fun h => Or.inl h
        · rintro (h | rfl)
          · exact h
          · exact hmem
      · rw [if_neg hmem]
        simp [eq_comm]
    rw [happ]
    constructor
    · rintro ((h | h) | ⟨v, hv, hrel⟩)
      · exact Or.inl h
      · exact Or.inr ⟨u, by simp, h⟩
      · exact Or.inr ⟨v, by simp [hv], hrel⟩
    · rintro (h | ⟨v, hv, hrel⟩)
      · exact Or.inl (Or.inl h)
      · rcases List.mem_cons.mp hv with rfl | hv
        · exact Or.inl (Or.inr hrel)
        · exact Or.inr ⟨v, hv, hrel⟩

/-- `WriteRelationships` preserves distinctness of the relation engine
state. -/
theorem nodup_writeRelationships {w : List Relationship} (hw : w.Nodup)
    (us : List RelationshipUpdate) : (writeRelationships w us).Nodup := by
  induction us generalizing w with
  | nil => exact hw
  | cons u us ih =>
    have hstep : writeRelationships w (u :: us) =
        writeRelationships (applyUpdate w u) us := rfl
    rw [hstep]
    refine ih ?_
    rw [applyUpdate]
    cases u.op with
    | touch =>
      by_cases hmem : u.rel ∈ w
      · simpa [hmem] using hw
      · simp only [if_neg hmem]
        rw [List.nodup_append]
        exact ⟨hw, List.nodup_singleton _, by simpa using hmem⟩
    | delete => exact hw.filter _

/-- A filter over a distinct list whose predicate holds exactly at one
present element returns that singleton. -/
theorem filter_eq_singleton_of_nodup {α : Type} {l : List α} (hn : l.Nodup)
    {p : α → Bool} {a : α} (ha : a ∈ l)
    (h : ∀ x ∈ l, p x = true ↔ x = a) : l.filter p = [a] := by
  induction l with
  | nil => cases ha
  | cons b t ih =>
    by_cases hpb : p b = true
    · have hba : b = a := (h b (by simp)).mp hpb
      subst hba
      have hbt : b ∉ t := (List.nodup_cons.mp hn).1
      have hft : t.filter p = [] := by
        rw [List.filter_eq_nil_iff]
        intro x hx hpx
        exact hbt ((h x (List.mem_cons_of_mem _ hx)).mp hpx ▸ hx)
      rw [List.filter_cons_of_pos hpb, hft]
    · have hat : a ∈ t := by
        rcases List.mem_cons.mp ha with hba | hat
        · exact absurd ((h b (by simp)).mpr hba.symm) hpb
        · exact hat
      rw [List.filter_cons_of_neg (by simpa using hpb)]
      exact ih (List.nodup_cons.mp hn).2 hat
        (fun x hx => h x (List.mem_cons_of_mem _ hx))

/-- `exceptMapList` succeeds with the pointwise map when the function
succeeds on every element. -/
theorem exceptMapList_ok {α β : Type} {f : α → Except String β} {g : α → β}
    {l : List α} (h : ∀ x ∈ l, f x = Except.ok (g x)) :
    exceptMapList f l = Except.ok (l.map g) := by
  induction l with
  | nil => rfl
  | cons x xs ih =>
    rw [exceptMapList, h x (by simp), ih (fun y hy => h y (by simp [hy]))]
    rfl

/-- Counterexample to C2 as stated: in `worldSplitC`, role X exists only in
the relation engine and role Y only in storage. The output is a single
entry whose ID is empty — the relation engine role does not keep its ID —
and no entry carries the storage-only role Y although storage lists it. -/
theorem listRolesV2_merge_counterexample :
    ListRolesV2 engC worldSplitC ownerC =
      Except.ok [{ Role.empty with actions := ["loadbalancer_get"] }] ∧
    ({ Role.empty with actions := ["loadbalancer_get"] } : Role).id ≠
      roleIdXC ∧
    (worldSplitC.roles.map (fun s => s.id)).contains roleIdYC = true ∧
    ¬ ((([{ Role.empty with actions := ["loadbalancer_get"] }] :
        List Role).map (fun r => r.id)).contains roleIdYC = true) := by
  refine ⟨by rfl, by decide, by decide, by decide⟩

/-- Claim C2 (amended): `ListRolesV2` returns one entry per role found in
the relation engine; an entry merges the storage row (ID, name, metadata)
with the relation engine actions when the row exists, and is the zero role
carrying only the relation engine actions otherwise; roles present only in
storage are omitted. -/
theorem listRolesV2_merge (eng : Engine) (world : World) (owner : Resource)
    (hparse : ∀ r ∈ readRelationships world.rels (ownerRoleFilter eng owner),
      (gidxParse eng r.resourceId).isSome) :
    ListRolesV2 eng world owner =
      Except.ok
        ((readRelationships world.rels (ownerRoleFilter eng owner)).map
          (fun r => joinedRoleEntry eng world owner r.resourceId)) ∧
    (∀ s ∈ world.roles, s.id ≠ [] →
      (∀ r ∈ readRelationships world.rels (ownerRoleFilter eng owner),
        r.resourceId ≠ s.id) →
      ∀ x ∈ (readRelationships world.rels (ownerRoleFilter eng owner)).map
          (fun r => joinedRoleEntry eng world owner r.resourceId),
        x.id ≠ s.id) := by
  constructor
  · have hspice : listSpicedbRolesV2 eng world owner =
        Except.ok
          ((readRelationships world.rels (ownerRoleFilter eng owner)).map
            (fun r =>
              { Role.empty with
                id := r.resourceId,
                actions := listRoleV2Actions eng world r.resourceId })) := by
      rw [listSpicedbRolesV2]
      refine exceptMapList_ok ?_
      intro r hr
      obtain ⟨p, hp⟩ := Option.isSome_iff_exists.mp (hparse r hr)
      rw [hp]
    simp only [ListRolesV2, hspice]
    congr 1
    rw [List.map_map]
    refine List.map_congr_left ?_
    intro r hr
    simp only [Function.comp]
    rw [joinedRoleEntry]
    cases hf : (ListResourceRoles world owner.id).find?
        (fun s => s.id = r.resourceId) with
    | none => simp [hf, StorageRole.empty, Role.empty]
    | some s => simp [hf]
  · intro s hs hsid hnores x hx hxid
    obtain ⟨r, hr, hrx⟩ := List.mem_map.mp hx
    rw [joinedRoleEntry] at hrx
    cases hf : (ListResourceRoles world owner.id).find?
        (fun s2 => s2.id = r.resourceId) with
    | none =>
      rw [hf] at hrx
      apply hsid
      rw [← hxid, ← hrx]
      rfl
    | some s2 =>
      rw [hf] at hrx
      have hxid2 : x.id = s2.id := by rw [← hrx]
      have hs2 : s2.id = r.resourceId := by
        have := List.find?_some hf
        simpa using this
      exact hnores r hr (by rw [← hs2, ← hxid2, hxid])

/-- Witness for the amended C2 at the split world: the merge equation
holds concretely. -/
theorem listRolesV2_merge_witness :
    ListRolesV2 engC worldSplitC ownerC =
      Except.ok
        ((readRelationships worldSplitC.rels
          (ownerRoleFilter engC ownerC)).map
          (fun r => joinedRoleEntry engC worldSplitC ownerC r.resourceId)) :=
  (listRolesV2_merge engC worldSplitC ownerC (by decide)).1

/-- Every update written during role creation is a TOUCH. -/
theorem createUpdates_touch (eng : Engine) (rid : List Char)
    (actions : List String) (owner : Resource) :
    ∀ u ∈ createUpdates eng rid actions owner, u.op = RelOp.touch := by
  intro u hu
  rcases List.mem_append.mp hu with hu | hu
  · obtain ⟨a, ha, hm⟩ := List.mem_flatMap.mp hu
    obtain ⟨st, hst, rfl⟩ := List.mem_map.mp hm
    rfl
  · rw [List.mem_singleton] at hu
    subst hu
    rfl

/-- After creating a role in an empty relation engine state, the actions
read back for the role are, as a set, exactly the requested actions. -/
theorem listRoleV2Actions_create (eng : Engine) (rid : List Char)
    (actions : List String) (owner : Resource) (rs : List StorageRole)
    (s0 : String) (srest : List String)
    (hsubj : eng.roleSubjects = s0 :: srest) (howner : owner.id ≠ ['*']) :
    (listRoleV2Actions eng
      { rels := writeRelationships [] (createUpdates eng rid actions owner),
        roles := rs } rid).toFinset = actions.toFinset := by
  have hmem := mem_writeRelationships
    (createUpdates_touch eng rid actions owner) []
  ext a
  simp only [List.mem_toFinset]
  simp only [listRoleV2Actions, hsubj]
  constructor
  · intro ha
    obtain ⟨r, hr, hra⟩ := List.mem_map.mp ha
    obtain ⟨hr1, hr2⟩ := List.mem_filter.mp hr
    rw [hmem] at hr1
    rcases hr1 with h | ⟨u, hu, hur⟩
    · cases h
    rcases List.mem_append.mp hu with hu | hu
    · obtain ⟨a2, ha2, hm⟩ := List.mem_flatMap.mp hu
      obtain ⟨st, hst, rfl⟩ := List.mem_map.mp hm
      rw [← hur] at hra
      rw [mkActionUpdate] at hra
      simp only [relationToAction] at hra
      exact hra ▸ ha2
    · rw [List.mem_singleton] at hu
      subst hu
      rw [← hur] at hr2
      simp [relMatches, mkOwnerUpdate, howner] at hr2
  · intro ha
    refine List.mem_map.mpr ⟨(mkActionUpdate eng rid a s0).rel, ?_, rfl⟩
    refine List.mem_filter.mpr ⟨?_, ?_⟩
    · rw [hmem]
      refine Or.inr ⟨mkActionUpdate eng rid a s0, ?_, rfl⟩
      refine List.mem_append.mpr (Or.inl ?_)
      refine List.mem_flatMap.mpr ⟨a, ha, ?_⟩
      refine List.mem_map.mpr ⟨s0, ?_, rfl⟩
      rw [hsubj]
      simp
    · simp [relMatches, mkActionUpdate]

/-- After creating a role in an empty relation engine state, the owner
filter of `listSpicedbRolesV2` reads back exactly the owner
relationship. -/
theorem readOwner_create (eng : Engine) (rid : List Char)
    (actions : List String) (owner : Resource) (howner : owner.id ≠ ['*']) :
    readRelationships
      (writeRelationships [] (createUpdates eng rid actions owner))
      (ownerRoleFilter eng owner) = [(mkOwnerUpdate eng rid owner).rel] := by
  have hmem := mem_writeRelationships
    (createUpdates_touch eng rid actions owner) []
  refine filter_eq_singleton_of_nodup
    (nodup_writeRelationships List.nodup_nil _) ?_ ?_
  · rw [hmem]
    refine Or.inr ⟨mkOwnerUpdate eng rid owner, ?_, rfl⟩
    exact List.mem_append.mpr (Or.inr (by simp))
  · intro x hx
    rw [hmem] at hx
    rcases hx with h | ⟨u, hu, hur⟩
    · cases h
    rcases List.mem_append.mp hu with hu | hu
    · obtain ⟨a2, ha2, hm⟩ := List.mem_flatMap.mp hu
      obtain ⟨st, hst, rfl⟩ := List.mem_map.mp hm
      subst hur
      constructor
      · intro hmatch
        simp [relMatches, ownerRoleFilter, mkActionUpdate] at hmatch
      · intro heq
        simp [mkActionUpdate, mkOwnerUpdate] at heq
    · rw [List.mem_singleton] at hu
      subst hu
      subst hur
      constructor
      · intro _
        rfl
      · intro _
        simp [relMatches, ownerRoleFilter, mkOwnerUpdate]

/-- After creating a role in an empty relation engine state,
`listSpicedbRolesV2` for the owner returns exactly the new role with its
read-back actions. -/
theorem listSpicedbRolesV2_create (eng : Engine) (rid : List Char)
    (actions : List String) (owner : Resource) (rs : List StorageRole)
    (howner : owner.id ≠ ['*'])
    (hgp : (gidxParse eng rid).isSome = true) :
    listSpicedbRolesV2 eng
      { rels := writeRelationships [] (createUpdates eng rid actions owner),
        roles := rs } owner =
    Except.ok
      [{ Role.empty with
         id := rid,
         actions :=
           listRoleV2Actions eng
             { rels :=
                 writeRelationships [] (createUpdates eng rid actions owner),
               roles := rs } rid }] := by
  obtain ⟨p, hp⟩ := Option.isSome_iff_exists.mp hgp
  simp only [listSpicedbRolesV2]
  rw [readOwner_create eng rid actions owner howner]
  rw [exceptMapList]
  simp only [mkOwnerUpdate, hp]
  rfl

/-- Claim C4: a successful `CreateRoleV2` in a fresh state is read back
consistently: `GetRoleV2` on the new role ID returns an action list that
is, as a set, exactly the requested actions, and `ListRolesV2` of the
owner contains a role with the new role ID. -/
theorem createRoleV2_roundtrip (eng : Engine) (beh : StoreBehavior)
    (actor owner : Resource) (roleName : String) (actions : List String)
    (token : List Char) (pt0 : String × List Char) (s0 : String)
    (srest : List String)
    (hfind : eng.schemaTypeMap.find? (fun pt => pt.1 = eng.roleResource) =
      some pt0)
    (hpfind : eng.schemaTypeMap.find? (fun pt => pt.2 = pt0.2) = some pt0)
    (hpfx : pt0.2.length = 7) (htok : token ≠ [])
    (hsubj : eng.roleSubjects = s0 :: srest)
    (howner : owner.id ≠ ['*'])
    (hb : beh.beginErr = none) (hc : beh.createErr = none)
    (hw : beh.writeErr = none) (hcm : beh.commitErr = none) :
    ∃ cr, CreateRoleV2 eng beh worldEmpty actor owner roleName actions
        token = Except.ok cr ∧
      cr.err = none ∧
      (∃ g, GetRoleV2 eng cr.world
          { id := cr.role.id, type := eng.roleResource } = Except.ok g ∧
        g.actions.toFinset = actions.toFinset) ∧
      (∃ out, ListRolesV2 eng cr.world owner = Except.ok out ∧
        ∃ x ∈ out, x.id = cr.role.id) := by
  have hpt01 : pt0.1 = eng.roleResource := by
    have := List.find?_some hfind
    simpa using this
  have hreg : (pt0.1, pt0.2) ∈ eng.schemaTypeMap := by
    have := List.mem_of_find?_eq_some hfind
    simpa using this
  have hrole : newRoleWithPrefix pt0.2 roleName.trim actions token =
      Except.ok
        { Role.empty with
          id := pt0.2 ++ token, name := roleName.trim,
          actions := actions } := by
    rw [newRoleWithPrefix, gidxNewID, if_pos hpfx]
  obtain ⟨hgp, pt, hpt, hres⟩ :=
    newResourceFromID_ok eng pt0.2 token pt0.1 hreg hpfx htok
  have hptpt0 : pt = pt0 := by
    rw [hpt] at hpfind
    exact Option.some_inj.mp hpfind
  rw [hptpt0] at hres
  rw [hpt01] at hres
  have hrels : roleCreationRels eng
      { Role.empty with
        id := pt0.2 ++ token, name := roleName.trim, actions := actions }
      owner =
      Except.ok (createUpdates eng (pt0.2 ++ token) actions owner) := by
    rw [roleCreationRels, roleV2Relationships, roleV2OwnerRelationship]
    simp only [hres, hfind]
    rfl
  have hcr : CreateRoleV2 eng beh worldEmpty actor owner roleName actions
      token =
      Except.ok
        { role :=
            { id := pt0.2 ++ token, name := roleName.trim,
              actions := actions, resourceID := owner.id,
              createdBy := actor.id, updatedBy := actor.id,
              createdAt := beh.now, updatedAt := beh.now },
          err := none,
          world :=
            { rels :=
                writeRelationships []
                  (createUpdates eng (pt0.2 ++ token) actions owner),
              roles :=
                [{ id := pt0.2 ++ token, name := roleName.trim,
                   resourceID := owner.id, createdBy := actor.id,
                   updatedBy := actor.id, createdAt := beh.now,
                   updatedAt := beh.now }] },
          rolledBack := false, loggedRollbackErr := none } := by
    rw [CreateRoleV2]
    simp only [hfind, Option.map_some', Option.getD_some]
    rw [hrole]
    simp only [hrels, hb, hc, hw, hcm]
    rfl
  refine ⟨_, hcr, rfl, ?_, ?_⟩
  · have hget : GetRoleByID
        { rels :=
            writeRelationships []
              (createUpdates eng (pt0.2 ++ token) actions owner),
          roles :=
            [{ id := pt0.2 ++ token, name := roleName.trim,
               resourceID := owner.id, createdBy := actor.id,
               updatedBy := actor.id, createdAt := beh.now,
               updatedAt := beh.now }] } (pt0.2 ++ token) =
        Except.ok
          { id := pt0.2 ++ token, name := roleName.trim,
            resourceID := owner.id, createdBy := actor.id,
            updatedBy := actor.id, createdAt := beh.now,
            updatedAt := beh.now } := by
      simp [GetRoleByID]
    rw [GetRoleV2, if_neg (by simp)]
    rw [hget]
    refine ⟨_, rfl, ?_⟩
    exact listRoleV2Actions_create eng (pt0.2 ++ token) actions owner _
      s0 srest hsubj howner
  · have hspice := listSpicedbRolesV2_create eng (pt0.2 ++ token) actions
      owner
      [{ id := pt0.2 ++ token, name := roleName.trim,
         resourceID := owner.id, createdBy := actor.id,
         updatedBy := actor.id, createdAt := beh.now,
         updatedAt := beh.now }] howner (by rw [hgp]; rfl)
    simp only [ListRolesV2, hspice]
    refine ⟨_, rfl, ?_⟩
    simp only [List.map_cons, List.map_nil]
    refine ⟨_, List.mem_singleton_self _, ?_⟩
    simp [ListResourceRoles]

/-- Witness for C4: a concrete role creation with two actions at the
`infratographer` engine, read back by ID and listed for the owner. -/
theorem createRoleV2_roundtrip_witness :
    ∃ cr, CreateRoleV2 engC { now := 0 } worldEmpty actorC ownerC "admin"
        ["loadbalancer_get", "loadbalancer_create"] tokenC =
        Except.ok cr ∧
      cr.err = none ∧
      (∃ g, GetRoleV2 engC cr.world
          { id := cr.role.id, type := engC.roleResource } = Except.ok g ∧
        g.actions.toFinset =
          (["loadbalancer_get", "loadbalancer_create"] :
            List String).toFinset) ∧
      (∃ out, ListRolesV2 engC cr.world ownerC = Except.ok out ∧
        ∃ x ∈ out, x.id = cr.role.id) :=
  createRoleV2_roundtrip engC { now := 0 } actorC ownerC "admin"
    ["loadbalancer_get", "loadbalancer_create"] tokenC
    ("rolev2", "permrv2".toList) "user" ["client"] (by rfl) (by rfl)
    (by decide) (by decide) (by rfl) (by decide) rfl rfl rfl rfl
